import Mathlib

/-!
Shallow embedding of the version-aware upgrade engine of the
`grapesjs-version-flow` plugin: the version comparator and version
registry (`VersionManager`), the sequential upgrade engine
(`UpgradeEngine.runUpgrades`, `runWhatsNew`) and the plugin's option
resolution, together with theorems checking the specification's claims
against these definitions.
-/

namespace VersionFlow

/-! ## Version comparator (`VersionManager.parseVersion`,
`defaultCompareVersions`, `compareVersions`) -/

/-- JavaScript `String.prototype.split('.')` on a character list: the
(possibly empty) chunks between the dots; splitting the empty string yields
one empty chunk, like `"".split('.') === [""]`. -/
def splitParts : List Char → List (List Char)
  | [] => [[]]
  | c :: cs =>
    if c = '.' then [] :: splitParts cs
    else
      match splitParts cs with
      | p :: ps => (c :: p) :: ps
      | [] => [[c]]

/-- Model of JavaScript `parseInt(part, 10)` on the characters of one part:
skip leading whitespace, read an optional sign and then the longest prefix of
decimal digits; `none` models the `NaN` result when no digit is found. -/
def jsParseInt (s : List Char) : Option Int :=
  let cs := s.dropWhile (fun c => c = ' ' ∨ c = '\t' ∨ c = '\n' ∨ c = '\r')
  let signAndRest : Int × List Char :=
    match cs with
    | '-' :: r => (-1, r)
    | '+' :: r => (1, r)
    | r => (1, r)
  let ds := signAndRest.2.takeWhile Char.isDigit
  if ds.isEmpty then none
  else some (signAndRest.1 * (ds.foldl (fun acc c => acc * 10 + (c.toNat - '0'.toNat)) 0 : Nat))

/-- `parseVersion(version)`: split on `.` and map each part through
`parseInt`, turning `NaN` (non-numeric parts) into `0`. -/
def parseVersion (version : String) : List Int :=
  (splitParts version.data).map (fun part => (jsParseInt part).getD 0)

/-- The comparison loop of `defaultCompareVersions` once the first part list
is exhausted (`v1Parts[i] || 0` contributes `0` parts). -/
def comparePartsNil : List Int → Int
  | [] => 0
  | y :: ys => if (0 : Int) < y then -1 else if y < 0 then 1 else comparePartsNil ys

/-- The comparison loop of `defaultCompareVersions`: compare the two part
lists position by position, an exhausted list contributing `0` parts
(`v1Parts[i] || 0`). -/
def compareParts : List Int → List Int → Int
  | [], ys => comparePartsNil ys
  | x :: xs, [] => if x < 0 then -1 else if (0 : Int) < x then 1 else compareParts xs []
  | x :: xs, y :: ys => if x < y then -1 else if y < x then 1 else compareParts xs ys

/-- `defaultCompareVersions(version1, version2)`: `0` on string-identical
inputs, otherwise the part-wise numeric comparison of the parsed versions. -/
def defaultCompareVersions (version1 version2 : String) : Int :=
  if version1 = version2 then 0
  else compareParts (parseVersion version1) (parseVersion version2)

/-- Type of a caller-supplied override comparator (`options.compareFn`). -/
def CompareFn := String → String → Int

/-- `compareVersions(version1, version2)`: delegate to `options.compareFn`
when configured, otherwise use the default algorithm. -/
def compareVersions (compareFn : Option CompareFn) (version1 version2 : String) : Int :=
  match compareFn with
  | some f => f version1 version2
  | none => defaultCompareVersions version1 version2

/-! ## Version steps and the registry (`VersionManager`) -/

/-- Outcome of one invocation of a step's `upgrade(context)` action:
`ok m` models a resolved call whose returned log message is `m`
(`none` when the action returned nothing), `err m` a throw/rejection whose
error's `message` property is `m` (`none` when absent). -/
inductive UpgradeOutcome where
  | ok : Option String → UpgradeOutcome
  | err : Option String → UpgradeOutcome
deriving DecidableEq, Repr

/-- One catalog entry of `options.versions`. `whatsNew = none` models a step
without a `whatsNew` function; `some true` a `whatsNew` action that resolves,
`some false` one that throws/rejects. -/
structure VersionStep where
  builderVersion : String
  upgrade : UpgradeOutcome
  whatsNew : Option Bool
deriving DecidableEq, Repr

/-- JavaScript truthiness test `!savedVersion` on a nullable string: true for
`null`/`undefined` (modelled by `none`) and for the empty string. -/
def jsFalsy (savedVersion : Option String) : Bool :=
  match savedVersion with
  | none => true
  | some s => s = ""

/-- The comparator handed to `Array.prototype.sort` in `getPendingUpgrades`,
as the `≤` relation of the stable sort it performs. -/
def stepLE (compareFn : Option CompareFn) (a b : VersionStep) : Prop :=
  compareVersions compareFn a.builderVersion b.builderVersion ≤ 0

instance (compareFn : Option CompareFn) : DecidableRel (stepLE compareFn) :=
  fun _ _ => Int.decLe _ _

/-- `VersionManager.getPendingUpgrades(savedVersion, currentVersion)`:
filter the catalog by the pending condition and stably sort the result by
target version. JavaScript `Array.prototype.sort` is required to be a stable
sort; it is modelled by `List.insertionSort`, which is stable. -/
def getPendingUpgrades (compareFn : Option CompareFn) (versions : List VersionStep)
    (savedVersion : Option String) (currentVersion : String) : List VersionStep :=
  if jsFalsy savedVersion then
    List.insertionSort (stepLE compareFn)
      (versions.filter fun step =>
        compareVersions compareFn step.builderVersion currentVersion ≤ 0)
  else
    List.insertionSort (stepLE compareFn)
      (versions.filter fun step =>
        decide (compareVersions compareFn (savedVersion.getD "") step.builderVersion < 0) &&
        decide (compareVersions compareFn step.builderVersion currentVersion ≤ 0))

/-- `VersionManager.hasWhatsNewSteps()`: some catalog step has a `whatsNew`
function. -/
def hasWhatsNewSteps (versions : List VersionStep) : Bool :=
  versions.any fun step => step.whatsNew.isSome

/-- `VersionManager.needsUpgrade(savedVersion, currentVersion)`. -/
def needsUpgrade (compareFn : Option CompareFn) (versions : List VersionStep)
    (savedVersion : Option String) (currentVersion : String) : Bool :=
  if jsFalsy savedVersion then
    decide ((getPendingUpgrades compareFn versions savedVersion currentVersion).length > 0) ||
      hasWhatsNewSteps versions
  else
    compareVersions compareFn (savedVersion.getD "") currentVersion < 0

/-- `VersionManager.getPendingWhatsNew(savedVersion, currentVersion)`:
the pending upgrades restricted to steps with a `whatsNew` function. -/
def getPendingWhatsNew (compareFn : Option CompareFn) (versions : List VersionStep)
    (savedVersion : Option String) (currentVersion : String) : List VersionStep :=
  (getPendingUpgrades compareFn versions savedVersion currentVersion).filter
    fun step => step.whatsNew.isSome

/-! ## Spec-side restatement of the default comparison algorithm, for the
refinement claim about the comparator. -/

/-- Zero-pad a part list at its tail up to length `n`. -/
def padZeros (xs : List Int) (n : Nat) : List Int :=
  xs ++ List.replicate (n - xs.length) 0

/-- Sign of the first differing position of two part lists (0 when none
differs). -/
def firstDiffSign : List Int → List Int → Int
  | x :: xs, y :: ys => if x < y then -1 else if y < x then 1 else firstDiffSign xs ys
  | _, _ => 0

/-- The default comparison algorithm as the specification words it: `0` for
string-identical inputs, otherwise split each identifier on `.` into integer
parts (non-numeric or missing parts are 0), zero-pad the shorter sequence to
the longer one's length, and return the sign of the first differing
position. -/
def specCompareVersions (a b : String) : Int :=
  if a = b then 0
  else
    let pa := parseVersion a
    let pb := parseVersion b
    let n := max pa.length pb.length
    firstDiffSign (padZeros pa n) (padZeros pb n)

/-! ## Upgrade engine (`UpgradeEngine`) -/

/-- A log entry `{ level, message }` as produced by the engine (`level` is
one of the strings used by the source: `info`, `warn`, `error`). -/
structure LogEntry where
  level : String
  message : String
deriving DecidableEq, Repr

/-- The object returned by `runUpgrades`. Fields that some return sites omit
(`failedSteps`, `error`) are `Option`s, `none` modelling an absent key.
`upgradedTo` is an `Option` because `lastSuccessfulVersion` starts as the
(possibly null) saved version. -/
structure RunResult where
  success : Bool
  logs : List LogEntry
  upgradedTo : Option String
  failedSteps : Option (List String)
  error : Option String
deriving DecidableEq, Repr

/-- Behaviour of the event listeners during one run: the n-th
`eventSystem.emit` call of the run throws an error whose `message` is `m`
when the environment maps `n` to `some m`, and returns normally on `none`.
This models the only operations inside `runUpgrades` whose failure escapes
the per-step `catch` (the engine's own bookkeeping never throws). -/
def EmitEnv := Nat → Option String

/-- The environment in which no listener ever throws. -/
def pureEnv : EmitEnv := fun _ => none

/-- JavaScript `x || d` for a possibly-absent string `x`: the default is
taken for `null`/`undefined` and for the (falsy) empty string. -/
def jsOr (o : Option String) (d : String) : String :=
  match o with
  | none => d
  | some s => if s = "" then d else s

/-- The engine-local mutable data threaded through one `runUpgrades` call:
the emit counter, `options.builderVersion` (written by
`versionManager.updateVersion`), `allLogs`, `failedSteps`,
`lastSuccessfulVersion`, `currentStep`, and a trace of the steps whose
`upgrade` action was actually invoked. -/
structure LoopSt where
  counter : Nat
  builderVersion : String
  allLogs : List LogEntry
  failedSteps : List String
  lastSuccessful : Option String
  currentStep : Option VersionStep
  invoked : List VersionStep
deriving DecidableEq, Repr

/-- Whether the step loop proceeds to the next pending step or breaks. -/
inductive StepExit where
  | next
  | stop
deriving DecidableEq, Repr

/-- Emit one event: consume one environment slot. `some m` means the emit
threw. -/
def emitEvent (env : EmitEnv) (ls : LoopSt) : Option String × LoopSt :=
  (env ls.counter, { ls with counter := ls.counter + 1 })

/-- The per-step `catch` block of `runUpgrades`: build the error log from the
failure's message (`error.message || 'Unknown error occurred'` is applied by
the caller), push it, record the failed step, emit
`version:upgrade:error` and `version:versionUpgrade:end` (either emit may
itself throw, escaping to the outer catch), then break unless
`continueOnError`. -/
def handleStepFailure (env : EmitEnv) (continueOnError : Bool) (ls : LoopSt)
    (step : VersionStep) (logMessage : String) :
    Except (LoopSt × String) (LoopSt × StepExit) :=
  let errorLog : LogEntry :=
    { level := "error"
    , message := "Failed to upgrade to " ++ step.builderVersion ++ ": " ++ logMessage }
  let ls := { ls with
    allLogs := ls.allLogs ++ [errorLog]
    failedSteps := ls.failedSteps ++ [step.builderVersion] }
  match emitEvent env ls with
  | (some e, ls) => .error (ls, e)
  | (none, ls) =>
    match emitEvent env ls with
    | (some e, ls) => .error (ls, e)
    | (none, ls) =>
      if continueOnError then .ok (ls, .next) else .ok (ls, .stop)

/-- One iteration of the `for (const step of pendingSteps)` loop: set
`currentStep`, emit `version:versionUpgrade:start`, run the step's `upgrade`
action (`runSingleUpgrade`, which pushes the derived info log on success),
then `updateVersion`, record `lastSuccessfulVersion` and emit
`version:versionUpgrade:end`; any throw inside the `try` is handled by
`handleStepFailure`. -/
def processStep (env : EmitEnv) (continueOnError : Bool) (ls : LoopSt)
    (step : VersionStep) : Except (LoopSt × String) (LoopSt × StepExit) :=
  let ls := { ls with currentStep := some step }
  match emitEvent env ls with
  | (some e, ls) =>
      handleStepFailure env continueOnError ls step (jsOr (some e) "Unknown error occurred")
  | (none, ls) =>
    let ls := { ls with invoked := ls.invoked ++ [step] }
    match step.upgrade with
    | .err m =>
        handleStepFailure env continueOnError ls step (jsOr m "Unknown error occurred")
    | .ok m =>
      let infoLog : LogEntry :=
        { level := "info"
        , message := jsOr m ("Upgraded to " ++ step.builderVersion) }
      let ls := { ls with allLogs := ls.allLogs ++ [infoLog] }
      let ls := { ls with
        builderVersion := step.builderVersion
        lastSuccessful := some step.builderVersion }
      match emitEvent env ls with
      | (some e, ls) =>
          handleStepFailure env continueOnError ls step (jsOr (some e) "Unknown error occurred")
      | (none, ls) => .ok (ls, .next)

/-- The step loop over the pending steps. -/
def runLoop (env : EmitEnv) (continueOnError : Bool) :
    List VersionStep → LoopSt → Except (LoopSt × String) LoopSt
  | [], ls => .ok ls
  | step :: rest, ls =>
    match processStep env continueOnError ls step with
    | .error e => .error e
    | .ok (ls, .stop) => .ok ls
    | .ok (ls, .next) => runLoop env continueOnError rest ls

/-- The body of the outer `try` of `runUpgrades`: emit
`version:upgrade:start`, run the step loop, emit `version:upgrade:end`.
An `error` value is an unhandled error escaping to the outer catch. -/
def runBody (env : EmitEnv) (continueOnError : Bool) (pending : List VersionStep)
    (ls : LoopSt) : Except (LoopSt × String) LoopSt :=
  match emitEvent env ls with
  | (some e, ls) => .error (ls, e)
  | (none, ls) =>
    match runLoop env continueOnError pending ls with
    | .error e => .error e
    | .ok ls =>
      match emitEvent env ls with
      | (some e, ls) => .error (ls, e)
      | (none, ls) => .ok ls

/-- Combined state of the `VersionManager` (saved version, the shared
`options` object) and the `UpgradeEngine` instance fields. -/
structure SystemState where
  savedVersion : Option String
  builderVersion : String
  versions : List VersionStep
  compareFn : Option CompareFn
  continueOnError : Bool
  isUpgrading : Bool
  currentStep : Option VersionStep
  allLogs : List LogEntry
  failedSteps : List String

/-- What one `runUpgrades` call produces: the post-call system state, the
returned result object, and the trace of steps whose `upgrade` action was
invoked. -/
structure RunOutcome where
  state : SystemState
  result : RunResult
  invoked : List VersionStep

/-- The engine-local state at the start of the step loop: logs and failed
steps freshly cleared, `lastSuccessfulVersion = savedVersion`. -/
def initLoopSt (st : SystemState) : LoopSt :=
  { counter := 0
  , builderVersion := st.builderVersion
  , allLogs := []
  , failedSteps := []
  , lastSuccessful := st.savedVersion
  , currentStep := st.currentStep
  , invoked := [] }

/-- `UpgradeEngine.runUpgrades()`: re-entrancy guard, pending computation
with empty-pending fast path, the guarded step loop, the catastrophic
`catch`, and the `finally` that clears `isUpgrading` and `currentStep`. -/
def runUpgrades (env : EmitEnv) (st : SystemState) : RunOutcome :=
  if st.isUpgrading then
    { state := st
    , result :=
      { success := false
      , logs := []
      , upgradedTo := some st.builderVersion
      , failedSteps := none
      , error := some "Upgrade already in progress" }
    , invoked := [] }
  else
    let pending := getPendingUpgrades st.compareFn st.versions st.savedVersion st.builderVersion
    if pending.isEmpty then
      { state := st
      , result :=
        { success := true
        , logs := []
        , upgradedTo := some st.builderVersion
        , failedSteps := none
        , error := none }
      , invoked := [] }
    else
      match runBody env st.continueOnError pending (initLoopSt st) with
      | .ok ls =>
        { state := { st with
            builderVersion := ls.builderVersion
            allLogs := ls.allLogs
            failedSteps := ls.failedSteps
            isUpgrading := false
            currentStep := none }
        , result :=
          { success := true
          , logs := ls.allLogs
          , upgradedTo := ls.lastSuccessful
          , failedSteps := some ls.failedSteps
          , error := none }
        , invoked := ls.invoked }
      | .error (ls, msg) =>
        let errorLog : LogEntry :=
          { level := "error"
          , message := "Catastrophic upgrade error: " ++ jsOr (some msg) "Unknown error" }
        { state := { st with
            builderVersion := ls.builderVersion
            allLogs := ls.allLogs ++ [errorLog]
            failedSteps := ls.failedSteps
            isUpgrading := false
            currentStep := none }
        , result :=
          { success := false
          , logs := ls.allLogs ++ [errorLog]
          , upgradedTo := ls.lastSuccessful
          , failedSteps := some ls.failedSteps
          , error := some (jsOr (some msg) "Catastrophic upgrade error") }
        , invoked := ls.invoked }

/-- The loop of `UpgradeEngine.runWhatsNew()` over the pending announcement
steps: returns the steps whose `whatsNew` action was invoked and the steps
whose action threw (each such throw is caught and reported via
`console.warn`, and iteration continues). -/
def runWhatsNewLoop : List VersionStep → List VersionStep × List VersionStep
  | [] => ([], [])
  | step :: rest =>
    let r := runWhatsNewLoop rest
    match step.whatsNew with
    | none => r
    | some true => (step :: r.1, r.2)
    | some false => (step :: r.1, step :: r.2)

/-- `UpgradeEngine.runWhatsNew()`: iterate the pending what's-new steps. -/
def runWhatsNew (st : SystemState) : List VersionStep × List VersionStep :=
  runWhatsNewLoop (getPendingWhatsNew st.compareFn st.versions st.savedVersion st.builderVersion)

/-! ## Plugin option resolution (the plugin entry point in `src/index.js`) -/

/-- The integrator-supplied `opts` object: `none` models an absent key. -/
structure UserOpts where
  builderVersion : Option String := none
  versions : Option (List VersionStep) := none
  compareFn : Option (Option CompareFn) := none
  continueOnError : Option Bool := none

/-- The recognized configuration after resolution. -/
structure ResolvedOpts where
  builderVersion : String
  versions : List VersionStep
  compareFn : Option CompareFn
  continueOnError : Bool

/-- The option spread of the plugin entry point,
`{ builderVersion: '', versions: [], compareFn: null, continueOnError: true, ..., ...opts }`:
a key present in the integrator's `opts` overrides the default. -/
def resolveOptions (opts : UserOpts) : ResolvedOpts :=
  { builderVersion := opts.builderVersion.getD ""
  , versions := opts.versions.getD []
  , compareFn := opts.compareFn.getD none
  , continueOnError := opts.continueOnError.getD true }

/-! ## Observers and concrete data used by the witnesses -/

/-- The engine-local state after one iteration of the step loop under
listeners that do not throw, whichever way `processStep` exits. -/
def stepOutcomeSt (c : Bool) (ls : LoopSt) (step : VersionStep) : LoopSt :=
  match processStep pureEnv c ls step with
  | .ok (ls', _) => ls'
  | .error (ls', _) => ls'

/-- A catalog step with the given target version whose `upgrade` resolves
and which has no `whatsNew`. -/
def stepOf (v : String) : VersionStep :=
  { builderVersion := v, upgrade := .ok none, whatsNew := none }

/-- A step whose `upgrade` rejects with an error whose message is `boom`. -/
def stepFailA : VersionStep :=
  { builderVersion := "1.1.0", upgrade := .err (some "boom"), whatsNew := none }

/-- A step whose `upgrade` resolves. -/
def stepOkB : VersionStep :=
  { builderVersion := "1.2.0", upgrade := .ok none, whatsNew := none }

/-- A step whose `upgrade` resolves. -/
def stepOkC : VersionStep :=
  { builderVersion := "2.0.0", upgrade := .ok none, whatsNew := none }

/-- A catalog inserted out of version order. -/
def catW : List VersionStep :=
  [stepOf "2.0.0", stepOf "1.1.0", stepOf "1.2.0"]

/-- A catalog with one announcement-only step. -/
def catWhatsNew : List VersionStep :=
  [{ builderVersion := "2.0.0", upgrade := .ok none, whatsNew := some true }]

/-- An idle engine with catalog `[A (fails), B (succeeds), C (succeeds)]`
and `continueOnError = false`. -/
def sysHalt : SystemState :=
  { savedVersion := some "1.0.0", builderVersion := "2.0.0"
  , versions := [stepFailA, stepOkB, stepOkC], compareFn := none
  , continueOnError := false, isUpgrading := false, currentStep := none
  , allLogs := [], failedSteps := [] }

/-- An idle engine with catalog `[A (fails), B (succeeds)]` and
`continueOnError = true`. -/
def sysContinue : SystemState :=
  { sysHalt with versions := [stepFailA, stepOkB], continueOnError := true }

/-- An engine with a run already in flight. -/
def sysRunning : SystemState :=
  { sysHalt with isUpgrading := true }

/-- An idle engine with one pending bootstrap step. -/
def sysBoot : SystemState :=
  { savedVersion := none, builderVersion := "1.0.0"
  , versions := [stepOf "1.0.0"], compareFn := none
  , continueOnError := true, isUpgrading := false, currentStep := none
  , allLogs := [], failedSteps := [] }

/-- Listeners whose every `emit` throws an error with message `boom`. -/
def throwEnv : EmitEnv := fun _ => some "boom"

/-- The loop state at which `runBody throwEnv … (initLoopSt sysBoot)`
escapes: the very first emit throws. -/
def lsBoot : LoopSt :=
  { counter := 1, builderVersion := "1.0.0", allLogs := [], failedSteps := []
  , lastSuccessful := none, currentStep := none, invoked := [] }

/-- The loop state produced by the run over `sysContinue` under quiet
listeners: step A failed, step B succeeded afterwards. -/
def lsContinue : LoopSt :=
  { counter := 7, builderVersion := "1.2.0"
  , allLogs := [{ level := "error", message := "Failed to upgrade to 1.1.0: boom" },
                { level := "info", message := "Upgraded to 1.2.0" }]
  , failedSteps := ["1.1.0"], lastSuccessful := some "1.2.0"
  , currentStep := some stepOkB, invoked := [stepFailA, stepOkB] }

/-! ## Helper lemmas about the default comparator -/

theorem comparePartsNil_neg : ∀ ys, comparePartsNil ys = -compareParts ys [] := by
  intro ys
  induction ys with
  | nil => simp [comparePartsNil, compareParts]
  | cons y ys ih =>
      simp only [comparePartsNil, compareParts]
      split_ifs <;> omega

theorem compareParts_neg : ∀ xs ys, compareParts xs ys = -compareParts ys xs := by
  intro xs
  induction xs with
  | nil =>
      intro ys
      show comparePartsNil ys = -compareParts ys []
      exact comparePartsNil_neg ys
  | cons x xs ih =>
      intro ys
      cases ys with
      | nil =>
          have := comparePartsNil_neg (x :: xs)
          show compareParts (x :: xs) [] = -comparePartsNil (x :: xs)
          omega
      | cons y ys =>
          have := ih ys
          simp only [compareParts]
          split_ifs <;> omega

theorem compareParts_cons_form (xs ys : List Int) (h : xs ≠ [] ∨ ys ≠ []) :
    compareParts xs ys =
      if xs.headD 0 < ys.headD 0 then -1
      else if ys.headD 0 < xs.headD 0 then 1
      else compareParts xs.tail ys.tail := by
  cases xs <;> cases ys <;> simp_all [compareParts, comparePartsNil]

theorem compareParts_trans_aux : ∀ (n : Nat) (xs ys zs : List Int),
    xs.length + ys.length + zs.length ≤ n →
    compareParts xs ys ≤ 0 → compareParts ys zs ≤ 0 → compareParts xs zs ≤ 0 := by
  intro n
  induction n with
  | zero =>
      intro xs ys zs h _ _
      have hx : xs = [] := List.length_eq_zero.mp (by omega)
      have hz : zs = [] := List.length_eq_zero.mp (by omega)
      subst hx; subst hz; simp [compareParts, comparePartsNil]
  | succ n ih =>
      intro xs ys zs hlen h1 h2
      by_cases hxz : xs = [] ∧ zs = []
      · obtain ⟨hx, hz⟩ := hxz; subst hx; subst hz
        simp [compareParts, comparePartsNil]
      by_cases hxy : xs = [] ∧ ys = []
      · obtain ⟨hx, hy⟩ := hxy; subst hx; subst hy; exact h2
      by_cases hyz : ys = [] ∧ zs = []
      · obtain ⟨hy, hz⟩ := hyz; subst hy; subst hz; exact h1
      rw [compareParts_cons_form xs ys (by tauto)] at h1
      rw [compareParts_cons_form ys zs (by tauto)] at h2
      rw [compareParts_cons_form xs zs (by tauto)]
      have htail : xs.tail.length + ys.tail.length + zs.tail.length ≤ n := by
        have h4 : xs ≠ [] ∨ zs ≠ [] := by tauto
        rcases h4 with h | h
        · have := List.length_pos.mpr h
          simp only [List.length_tail]; omega
        · have := List.length_pos.mpr h
          simp only [List.length_tail]; omega
      split_ifs at h1 h2 ⊢ <;> first | omega | exact ih _ _ _ htail h1 h2

theorem defaultCompareVersions_neg (a b : String) :
    defaultCompareVersions a b = -defaultCompareVersions b a := by
  unfold defaultCompareVersions
  by_cases h : a = b
  · simp [h]
  · rw [if_neg h, if_neg (fun hh => h hh.symm)]
    exact compareParts_neg _ _

theorem defaultCompareVersions_le_trans (a b c : String)
    (h1 : defaultCompareVersions a b ≤ 0) (h2 : defaultCompareVersions b c ≤ 0) :
    defaultCompareVersions a c ≤ 0 := by
  by_cases hac : a = c
  · simp [defaultCompareVersions, hac]
  by_cases hab : a = b
  · subst hab; exact h2
  by_cases hbc : b = c
  · subst hbc; exact h1
  unfold defaultCompareVersions at h1 h2 ⊢
  rw [if_neg hab] at h1
  rw [if_neg hbc] at h2
  rw [if_neg hac]
  exact compareParts_trans_aux
    ((parseVersion a).length + (parseVersion b).length + (parseVersion c).length)
    _ _ _ (le_refl _) h1 h2

theorem defaultCompareVersions_total (a b : String) :
    defaultCompareVersions a b ≤ 0 ∨ defaultCompareVersions b a ≤ 0 := by
  have := defaultCompareVersions_neg a b
  omega

theorem firstDiffSign_nil (ys : List Int) :
    compareParts [] ys = firstDiffSign (List.replicate ys.length 0) ys := by
  show comparePartsNil ys = firstDiffSign (List.replicate ys.length 0) ys
  induction ys with
  | nil => simp [comparePartsNil, firstDiffSign]
  | cons y ys ih => simp only [comparePartsNil, List.length_cons, List.replicate_succ,
      firstDiffSign, ih]

theorem firstDiffSign_nil_right (xs : List Int) :
    compareParts xs [] = firstDiffSign xs (List.replicate xs.length 0) := by
  induction xs with
  | nil => simp [compareParts, comparePartsNil, firstDiffSign]
  | cons x xs ih => simp only [compareParts, List.length_cons, List.replicate_succ,
      firstDiffSign, ih]

theorem compareParts_eq_firstDiffSign : ∀ xs ys : List Int,
    compareParts xs ys =
      firstDiffSign (padZeros xs (max xs.length ys.length))
        (padZeros ys (max xs.length ys.length)) := by
  intro xs
  induction xs with
  | nil =>
      intro ys
      simp only [padZeros, List.length_nil, Nat.zero_max, List.nil_append, Nat.sub_self,
        List.replicate_zero, List.append_nil, Nat.sub_zero]
      exact firstDiffSign_nil ys
  | cons x xs ih =>
      intro ys
      cases ys with
      | nil =>
          simp only [padZeros, List.length_nil, Nat.max_zero, Nat.sub_self,
            List.replicate_zero, List.append_nil, List.nil_append, Nat.sub_zero]
          exact firstDiffSign_nil_right (x :: xs)
      | cons y ys =>
          have hmax : max (x :: xs).length (y :: ys).length = max xs.length ys.length + 1 := by
            simp [List.length_cons, Nat.succ_max_succ]
          have hpadx : padZeros (x :: xs) (max xs.length ys.length + 1) =
              x :: padZeros xs (max xs.length ys.length) := by
            simp [padZeros, List.length_cons, Nat.succ_sub_succ]
          have hpady : padZeros (y :: ys) (max xs.length ys.length + 1) =
              y :: padZeros ys (max xs.length ys.length) := by
            simp [padZeros, List.length_cons, Nat.succ_sub_succ]
          rw [hmax, hpadx, hpady]
          simp only [compareParts, firstDiffSign, ih ys]

theorem runWhatsNewLoop_eq (l : List VersionStep) (h : ∀ s ∈ l, s.whatsNew.isSome) :
    runWhatsNewLoop l = (l, l.filter fun s => decide (s.whatsNew = some false)) := by
  induction l with
  | nil => rfl
  | cons step rest ih =>
      have hstep := h step (List.mem_cons_self _ _)
      have hrest : ∀ s ∈ rest, s.whatsNew.isSome := fun s hs => h s (List.mem_cons_of_mem _ hs)
      cases hw : step.whatsNew with
      | none => rw [hw] at hstep; simp at hstep
      | some b =>
          cases b <;>
            simp [runWhatsNewLoop, hw, ih hrest, List.filter_cons]

/-! ## Claim theorems -/

/-- Claim C1: for every catalog, saved version and current version (under the
default comparator), `getPendingUpgrades` returns exactly the steps whose
target version is pending — with a saved version: strictly newer than saved
and not newer than current; without one: not newer than current — as a
permutation of the filtered catalog, sorted ascending by target version
under the comparator, with equal-comparing steps keeping their relative
catalog order (stable sort). -/
theorem getPendingUpgrades_spec (versions : List VersionStep)
    (savedVersion : Option String) (currentVersion : String) :
    (savedVersion = none →
      (getPendingUpgrades none versions savedVersion currentVersion).Perm
          (versions.filter fun step =>
            decide (defaultCompareVersions step.builderVersion currentVersion ≤ 0))
        ∧ (getPendingUpgrades none versions savedVersion currentVersion).Pairwise
            (fun a b => defaultCompareVersions a.builderVersion b.builderVersion ≤ 0)
        ∧ (∀ a b : VersionStep, [a, b].Sublist versions →
            defaultCompareVersions a.builderVersion currentVersion ≤ 0 →
            defaultCompareVersions b.builderVersion currentVersion ≤ 0 →
            defaultCompareVersions a.builderVersion b.builderVersion = 0 →
            [a, b].Sublist (getPendingUpgrades none versions savedVersion currentVersion)))
    ∧ (∀ s, savedVersion = some s → s ≠ "" →
      (getPendingUpgrades none versions savedVersion currentVersion).Perm
          (versions.filter fun step =>
            decide (defaultCompareVersions s step.builderVersion < 0) &&
            decide (defaultCompareVersions step.builderVersion currentVersion ≤ 0))
        ∧ (getPendingUpgrades none versions savedVersion currentVersion).Pairwise
            (fun a b => defaultCompareVersions a.builderVersion b.builderVersion ≤ 0)
        ∧ (∀ a b : VersionStep, [a, b].Sublist versions →
            defaultCompareVersions s a.builderVersion < 0 →
            defaultCompareVersions a.builderVersion currentVersion ≤ 0 →
            defaultCompareVersions s b.builderVersion < 0 →
            defaultCompareVersions b.builderVersion currentVersion ≤ 0 →
            defaultCompareVersions a.builderVersion b.builderVersion = 0 →
            [a, b].Sublist (getPendingUpgrades none versions savedVersion currentVersion))) := by
  haveI : IsTotal VersionStep (stepLE none) :=
    ⟨fun a b => defaultCompareVersions_total a.builderVersion b.builderVersion⟩
  haveI : IsTrans VersionStep (stepLE none) :=
    ⟨fun a b c hab hbc =>
      defaultCompareVersions_le_trans a.builderVersion b.builderVersion c.builderVersion hab hbc⟩
  constructor
  · rintro rfl
    refine ⟨?_, ?_, ?_⟩
    · exact List.perm_insertionSort _ _
    · exact List.sorted_insertionSort (stepLE none) _
    · intro a b hab ha hb heq
      have hfa : (fun step =>
          decide (compareVersions none step.builderVersion currentVersion ≤ 0)) a = true :=
        decide_eq_true ha
      have hfb : (fun step =>
          decide (compareVersions none step.builderVersion currentVersion ≤ 0)) b = true :=
        decide_eq_true hb
      have hfil := hab.filter (fun step =>
          decide (compareVersions none step.builderVersion currentVersion ≤ 0))
      have heq2 : List.filter (fun step =>
          decide (compareVersions none step.builderVersion currentVersion ≤ 0)) [a, b] =
          [a, b] := by
        simp only [List.filter_cons, List.filter_nil, hfa, hfb, if_true]
      rw [heq2] at hfil
      have hab0 : stepLE none a b := by
        show defaultCompareVersions a.builderVersion b.builderVersion ≤ 0
        omega
      have hpw : List.Pairwise (stepLE none) [a, b] :=
        List.pairwise_cons.mpr
          ⟨fun y hy => by rw [List.mem_singleton] at hy; subst hy; exact hab0,
           List.pairwise_singleton _ _⟩
      exact List.sublist_insertionSort hpw hfil
  · rintro s rfl hs
    have hfalsy : jsFalsy (some s) = false := by simp [jsFalsy, hs]
    refine ⟨?_, ?_, ?_⟩
    · simp only [getPendingUpgrades, hfalsy, Bool.false_eq_true, if_false]
      exact List.perm_insertionSort _ _
    · simp only [getPendingUpgrades, hfalsy, Bool.false_eq_true, if_false]
      exact List.sorted_insertionSort (stepLE none) _
    · intro a b hab ha1 ha2 hb1 hb2 heq
      simp only [getPendingUpgrades, hfalsy, Bool.false_eq_true, if_false]
      have hfa : (fun step =>
          decide (compareVersions none ((some s).getD "") step.builderVersion < 0) &&
          decide (compareVersions none step.builderVersion currentVersion ≤ 0)) a = true := by
        simp only [Bool.and_eq_true, decide_eq_true_eq]
        exact ⟨ha1, ha2⟩
      have hfb : (fun step =>
          decide (compareVersions none ((some s).getD "") step.builderVersion < 0) &&
          decide (compareVersions none step.builderVersion currentVersion ≤ 0)) b = true := by
        simp only [Bool.and_eq_true, decide_eq_true_eq]
        exact ⟨hb1, hb2⟩
      have hfil := hab.filter (fun step =>
          decide (compareVersions none ((some s).getD "") step.builderVersion < 0) &&
          decide (compareVersions none step.builderVersion currentVersion ≤ 0))
      have heq2 : List.filter (fun step =>
          decide (compareVersions none ((some s).getD "") step.builderVersion < 0) &&
          decide (compareVersions none step.builderVersion currentVersion ≤ 0)) [a, b] =
          [a, b] := by
        simp only [List.filter_cons, List.filter_nil, hfa, hfb, if_true]
      rw [heq2] at hfil
      have hab0 : stepLE none a b := by
        show defaultCompareVersions a.builderVersion b.builderVersion ≤ 0
        omega
      have hpw : List.Pairwise (stepLE none) [a, b] :=
        List.pairwise_cons.mpr
          ⟨fun y hy => by rw [List.mem_singleton] at hy; subst hy; exact hab0,
           List.pairwise_singleton _ _⟩
      exact List.sublist_insertionSort hpw hfil

/-- Witness for C1 at the out-of-order catalog of the specification's test
properties, with `saved = "1.1.0"` and `current = "2.0.0"`. -/
theorem getPendingUpgrades_spec_witness :
    (getPendingUpgrades none catW (some "1.1.0") "2.0.0").Perm
      (catW.filter fun step =>
        decide (defaultCompareVersions "1.1.0" step.builderVersion < 0) &&
        decide (defaultCompareVersions step.builderVersion "2.0.0" ≤ 0)) :=
  ((getPendingUpgrades_spec catW (some "1.1.0") "2.0.0").2 "1.1.0" rfl (by decide)).1

/-- Claim C2: the default comparator returns 0 on string-identical inputs and
otherwise the sign of the first differing position after splitting on `.`
into integer parts (non-numeric or missing parts 0) and zero-padding the
shorter sequence; in particular `compare("1.2","1.2.0") = 0` and
`compare("1.10.0","1.9.0") = 1`. -/
theorem defaultCompareVersions_spec :
    (∀ a b : String, defaultCompareVersions a b = specCompareVersions a b)
    ∧ defaultCompareVersions "1.2" "1.2.0" = 0
    ∧ defaultCompareVersions "1.10.0" "1.9.0" = 1 := by
  refine ⟨fun a b => ?_, by decide, by decide⟩
  unfold defaultCompareVersions specCompareVersions
  by_cases h : a = b
  · simp [h]
  · simp only [if_neg h]
    exact compareParts_eq_firstDiffSign (parseVersion a) (parseVersion b)

/-- Claim C3: with `continueOnError = false` and pending steps `[A, B, C]`
where A's upgrade fails and B's and C's would succeed, `runUpgrades` reports
`failedSteps = [A]`, `upgradedTo` equal to the saved (pre-run) version, and
invokes only A's upgrade action — iteration stops right after the first
failure, so B's and C's actions never run. -/
theorem runUpgrades_halts_on_first_failure (st : SystemState) (A B C : VersionStep)
    (mA : Option String)
    (hrun : st.isUpgrading = false)
    (hco : st.continueOnError = false)
    (hp : getPendingUpgrades st.compareFn st.versions st.savedVersion st.builderVersion
      = [A, B, C])
    (hA : A.upgrade = .err mA)
    (_hB : ∃ m, B.upgrade = .ok m) (_hC : ∃ m, C.upgrade = .ok m) :
    (runUpgrades pureEnv st).result.failedSteps = some [A.builderVersion]
    ∧ (runUpgrades pureEnv st).result.upgradedTo = st.savedVersion
    ∧ (runUpgrades pureEnv st).invoked = [A] := by
  simp only [runUpgrades, hrun, hp, hco, Bool.false_eq_true, if_false, List.isEmpty_cons,
    runBody, runLoop, processStep, handleStepFailure, emitEvent, pureEnv, initLoopSt, hA,
    jsOr]
  simp

/-- Witness for C3 at the concrete catalog `[A (fails), B, C]`. -/
theorem runUpgrades_halts_on_first_failure_witness :
    (runUpgrades pureEnv sysHalt).result.failedSteps = some [stepFailA.builderVersion]
    ∧ (runUpgrades pureEnv sysHalt).result.upgradedTo = sysHalt.savedVersion
    ∧ (runUpgrades pureEnv sysHalt).invoked = [stepFailA] :=
  runUpgrades_halts_on_first_failure sysHalt stepFailA stepOkB stepOkC (some "boom")
    rfl rfl (by decide) rfl ⟨none, rfl⟩ ⟨none, rfl⟩

/-- Claim C4 (code bug): the plugin entry point resolves a missing
`continueOnError` key to `true`, so the default continuation policy is
best-effort continuation — contradicting the README, which documents the
default as `false` (halt on first failure). -/
theorem resolveOptions_default_continueOnError :
    (resolveOptions {}).continueOnError = true := rfl

/-- Claim C5: a `runUpgrades` call while a run is already in flight returns a
failure-to-start result with an explanatory error and leaves the engine state
(including the in-flight run's logs and failed steps) completely untouched;
nothing is queued and no step is invoked. -/
theorem runUpgrades_reentrancy (env : EmitEnv) (st : SystemState)
    (h : st.isUpgrading = true) :
    runUpgrades env st =
      { state := st
      , result :=
        { success := false, logs := [], upgradedTo := some st.builderVersion
        , failedSteps := none, error := some "Upgrade already in progress" }
      , invoked := [] } := by
  simp only [runUpgrades, h, if_true]

/-- Witness for C5 at a concrete in-flight engine state. -/
theorem runUpgrades_reentrancy_witness :
    runUpgrades pureEnv sysRunning =
      { state := sysRunning
      , result :=
        { success := false, logs := [], upgradedTo := some "2.0.0"
        , failedSteps := none, error := some "Upgrade already in progress" }
      , invoked := [] } :=
  runUpgrades_reentrancy pureEnv sysRunning rfl

/-- Claim C6: a run started from an idle engine always ends with `isRunning`
cleared and `currentStep` reset to `null`, on every exit path; and when an
unhandled error escapes the step loop, the call returns the distinct
catastrophic-failure result that appends an error log and carries the logs
and partial progress accumulated so far. -/
theorem runUpgrades_finalizes (env : EmitEnv) (st : SystemState)
    (hrun : st.isUpgrading = false) (hstep : st.currentStep = none) :
    (runUpgrades env st).state.isUpgrading = false
    ∧ (runUpgrades env st).state.currentStep = none
    ∧ (getPendingUpgrades st.compareFn st.versions st.savedVersion st.builderVersion ≠ [] →
        ∀ ls msg, runBody env st.continueOnError
            (getPendingUpgrades st.compareFn st.versions st.savedVersion st.builderVersion)
            (initLoopSt st) = .error (ls, msg) →
          (runUpgrades env st).result =
            { success := false
            , logs := ls.allLogs ++
                [{ level := "error"
                 , message := "Catastrophic upgrade error: " ++ jsOr (some msg) "Unknown error" }]
            , upgradedTo := ls.lastSuccessful
            , failedSteps := some ls.failedSteps
            , error := some (jsOr (some msg) "Catastrophic upgrade error") }) := by
  refine ⟨?_, ?_, fun hne ls msg hb => ?_⟩
  · simp only [runUpgrades, hrun, Bool.false_eq_true, if_false]
    by_cases he : getPendingUpgrades st.compareFn st.versions st.savedVersion st.builderVersion = []
    · simp [he, hrun]
    · simp only [List.isEmpty_eq_false.mpr he, Bool.false_eq_true, if_false]
      cases runBody env st.continueOnError
        (getPendingUpgrades st.compareFn st.versions st.savedVersion st.builderVersion)
        (initLoopSt st) with
      | ok ls => rfl
      | error e => rfl
  · simp only [runUpgrades, hrun, Bool.false_eq_true, if_false]
    by_cases he : getPendingUpgrades st.compareFn st.versions st.savedVersion st.builderVersion = []
    · simp [he, hstep]
    · simp only [List.isEmpty_eq_false.mpr he, Bool.false_eq_true, if_false]
      cases runBody env st.continueOnError
        (getPendingUpgrades st.compareFn st.versions st.savedVersion st.builderVersion)
        (initLoopSt st) with
      | ok ls => rfl
      | error e => rfl
  · simp only [runUpgrades, hrun, Bool.false_eq_true, if_false,
      List.isEmpty_eq_false.mpr hne, hb]

/-- Witness for C6: listeners that throw on the very first emit make the run
end catastrophically, yet the engine is finalized and the failure result
carries the partial progress. -/
theorem runUpgrades_finalizes_witness :
    (runUpgrades throwEnv sysBoot).state.isUpgrading = false
    ∧ (runUpgrades throwEnv sysBoot).state.currentStep = none
    ∧ (runUpgrades throwEnv sysBoot).result =
      { success := false
      , logs := lsBoot.allLogs ++
          [{ level := "error"
           , message := "Catastrophic upgrade error: " ++ jsOr (some "boom") "Unknown error" }]
      , upgradedTo := lsBoot.lastSuccessful
      , failedSteps := some lsBoot.failedSteps
      , error := some (jsOr (some "boom") "Catastrophic upgrade error") } :=
  ⟨(runUpgrades_finalizes throwEnv sysBoot rfl rfl).1,
   (runUpgrades_finalizes throwEnv sysBoot rfl rfl).2.1,
   (runUpgrades_finalizes throwEnv sysBoot rfl rfl).2.2 (by decide) lsBoot "boom" rfl⟩

/-- Claim C7: `needsUpgrade` returns, for an absent (nullish) saved version,
whether the pending list is non-empty or some catalog step defines a
`whatsNew` action; and for a present saved version, whether
`compare(saved, current) < 0`. -/
theorem needsUpgrade_spec (compareFn : Option CompareFn) (versions : List VersionStep)
    (savedVersion : Option String) (currentVersion : String) :
    (savedVersion = none →
      needsUpgrade compareFn versions savedVersion currentVersion =
        (decide (getPendingUpgrades compareFn versions none currentVersion ≠ []) ||
          hasWhatsNewSteps versions))
    ∧ (∀ s, savedVersion = some s → s ≠ "" →
        needsUpgrade compareFn versions savedVersion currentVersion =
          decide (compareVersions compareFn s currentVersion < 0)) := by
  constructor
  · rintro rfl
    simp only [needsUpgrade, jsFalsy, if_true]
    congr 1
    exact decide_eq_decide.mpr (by exact List.length_pos)
  · rintro s rfl hs
    simp [needsUpgrade, jsFalsy, hs]

/-- Witness for C7: a first-run document with an announcement-only catalog,
and an outdated saved version. -/
theorem needsUpgrade_spec_witness :
    (needsUpgrade none catWhatsNew none "1.0.0" =
      (decide (getPendingUpgrades none catWhatsNew none "1.0.0" ≠ []) ||
        hasWhatsNewSteps catWhatsNew))
    ∧ (needsUpgrade none catWhatsNew (some "1.1.0") "2.0.0" =
        decide (compareVersions none "1.1.0" "2.0.0" < 0)) :=
  ⟨(needsUpgrade_spec none catWhatsNew none "1.0.0").1 rfl,
   (needsUpgrade_spec none catWhatsNew (some "1.1.0") "2.0.0").2 "1.1.0" rfl (by decide)⟩

/-- Claim C8: one iteration of the step loop (under quiet listeners) advances
the registry's in-memory current version to the step's target exactly when
the step's upgrade action succeeds — also recording it as the last
successful version and not as failed — and leaves the current version and
last successful version unchanged when the upgrade action fails. -/
theorem processStep_updateVersion (c : Bool) (ls : LoopSt) (step : VersionStep)
    (m : Option String) :
    (step.upgrade = .ok m →
      (stepOutcomeSt c ls step).builderVersion = step.builderVersion
      ∧ (stepOutcomeSt c ls step).lastSuccessful = some step.builderVersion
      ∧ (stepOutcomeSt c ls step).failedSteps = ls.failedSteps)
    ∧ (step.upgrade = .err m →
      (stepOutcomeSt c ls step).builderVersion = ls.builderVersion
      ∧ (stepOutcomeSt c ls step).lastSuccessful = ls.lastSuccessful
      ∧ (stepOutcomeSt c ls step).failedSteps = ls.failedSteps ++ [step.builderVersion]) := by
  constructor
  · intro h
    simp only [stepOutcomeSt, processStep, emitEvent, pureEnv, h]
    exact ⟨trivial, trivial, trivial⟩
  · intro h
    simp only [stepOutcomeSt, processStep, handleStepFailure, emitEvent, pureEnv, h]
    cases c <;> simp

/-- Witness for C8: a succeeding and a failing step processed from the same
loop state. -/
theorem processStep_updateVersion_witness :
    ((stepOutcomeSt false (initLoopSt sysHalt) stepOkB).builderVersion =
        stepOkB.builderVersion
      ∧ (stepOutcomeSt false (initLoopSt sysHalt) stepOkB).lastSuccessful =
        some stepOkB.builderVersion
      ∧ (stepOutcomeSt false (initLoopSt sysHalt) stepOkB).failedSteps =
        (initLoopSt sysHalt).failedSteps)
    ∧ ((stepOutcomeSt false (initLoopSt sysHalt) stepFailA).builderVersion =
        (initLoopSt sysHalt).builderVersion
      ∧ (stepOutcomeSt false (initLoopSt sysHalt) stepFailA).lastSuccessful =
        (initLoopSt sysHalt).lastSuccessful
      ∧ (stepOutcomeSt false (initLoopSt sysHalt) stepFailA).failedSteps =
        (initLoopSt sysHalt).failedSteps ++ [stepFailA.builderVersion]) :=
  ⟨(processStep_updateVersion false (initLoopSt sysHalt) stepOkB none).1 rfl,
   (processStep_updateVersion false (initLoopSt sysHalt) stepFailA (some "boom")).2 rfl⟩

/-- Claim C9: `runWhatsNew` invokes the `whatsNew` action of every pending
announcement step; a throwing action is recorded as a warning and never
prevents the remaining announcements from being invoked. -/
theorem runWhatsNew_isolated (st : SystemState) :
    (runWhatsNew st).1 =
      getPendingWhatsNew st.compareFn st.versions st.savedVersion st.builderVersion
    ∧ (runWhatsNew st).2 =
      (getPendingWhatsNew st.compareFn st.versions st.savedVersion st.builderVersion).filter
        (fun s => decide (s.whatsNew = some false)) := by
  have h : ∀ s ∈ getPendingWhatsNew st.compareFn st.versions st.savedVersion st.builderVersion,
      s.whatsNew.isSome := by
    intro s hs
    exact (List.mem_filter.mp hs).2
  rw [runWhatsNew, runWhatsNewLoop_eq _ h]
  exact ⟨rfl, rfl⟩

/-- Claim C10: the `success` flag of a completed run is `true` whenever no
error escaped the step loop, no matter how many steps failed; it is `false`
exactly for the re-entrancy rejection and the catastrophic-failure result. -/
theorem runUpgrades_success_flag (env : EmitEnv) (st : SystemState) :
    (st.isUpgrading = true →
      (runUpgrades env st).result.success = false
      ∧ (runUpgrades env st).result.error = some "Upgrade already in progress")
    ∧ (st.isUpgrading = false →
        getPendingUpgrades st.compareFn st.versions st.savedVersion st.builderVersion = [] →
        (runUpgrades env st).result.success = true)
    ∧ (st.isUpgrading = false →
        getPendingUpgrades st.compareFn st.versions st.savedVersion st.builderVersion ≠ [] →
        ∀ ls, runBody env st.continueOnError
            (getPendingUpgrades st.compareFn st.versions st.savedVersion st.builderVersion)
            (initLoopSt st) = .ok ls →
          (runUpgrades env st).result.success = true
          ∧ (runUpgrades env st).result.failedSteps = some ls.failedSteps)
    ∧ (st.isUpgrading = false →
        getPendingUpgrades st.compareFn st.versions st.savedVersion st.builderVersion ≠ [] →
        ∀ ls msg, runBody env st.continueOnError
            (getPendingUpgrades st.compareFn st.versions st.savedVersion st.builderVersion)
            (initLoopSt st) = .error (ls, msg) →
          (runUpgrades env st).result.success = false) := by
  refine ⟨fun h => ?_, fun h he => ?_, fun h hne ls hb => ?_, fun h hne ls msg hb => ?_⟩
  · simp [runUpgrades, h]
  · simp only [runUpgrades, h, Bool.false_eq_true, if_false, he, List.isEmpty_nil, if_true]
  · simp only [runUpgrades, h, Bool.false_eq_true, if_false,
      List.isEmpty_eq_false.mpr hne, hb]
    exact ⟨trivial, trivial⟩
  · simp only [runUpgrades, h, Bool.false_eq_true, if_false,
      List.isEmpty_eq_false.mpr hne, hb]

/-- Witness for C10: a run in which step A failed and step B succeeded still
returns `success = true` while reporting `failedSteps = ["1.1.0"]`. -/
theorem runUpgrades_success_flag_witness :
    (runUpgrades pureEnv sysContinue).result.success = true
    ∧ (runUpgrades pureEnv sysContinue).result.failedSteps = some ["1.1.0"] :=
  (runUpgrades_success_flag pureEnv sysContinue).2.2.1 rfl (by decide) lsContinue rfl

end VersionFlow
